import Mathlib

/-
Shallow embedding of server.js of the MemeSmash repository.

The storage table images(id, name, image_url, rating, matches_played) is
modelled as an association list from numeric ids to rows. The pg driver
returns NUMERIC columns as text, and the vote handler converts them with
parseFloat before any arithmetic (lines 87-92 of server.js). A stored
rating is therefore modelled as Option Real: some r when the stored text
parses to the finite value r, none when parsing yields NaN. JavaScript
NaN propagation through the Elo arithmetic is modelled by propagating
none through the lifted computation.

The HTTP responses of the handlers are modelled by small inductive types
whose constructors carry a comment naming the status code and message of
the original. The spec error taxonomy maps onto them as follows:
InvalidVoteError is the 400 response of the vote handler,
ItemNotFoundError the 404 response of the vote handler,
InsufficientItemsError the 404 response of the matchup handler and
PersistenceError the 500 response produced when the transaction throws.
-/

namespace MemeSmash

/-- A JavaScript number that may be NaN: some r is the finite value r, none is NaN. -/
abbrev JNum := Option ℝ

/-- One row of the images table: columns name, image_url, rating and matches_played.
The rating column is NUMERIC and is delivered to JavaScript as text: it is kept
here already classified by whether parseFloat succeeds on it. -/
structure Row where
  name : String
  image_url : String
  rating : JNum
  matches_played : Nat

/-- The images table: an association list from id to row. -/
abbrev Db := List (Nat × Row)

/-- SELECT id, name, rating FROM images WHERE id = x, keeping the first match
(lines 79-80 of server.js). -/
def getRow : Db → Nat → Option Row
  | [], _ => none
  | (i, row) :: rest, x => if i = x then some row else getRow rest x

/-- UPDATE images SET rating = v, matches_played = matches_played + 1 WHERE id = x
(lines 120-131 of server.js): every row whose id matches is rewritten, the
matches_played increment being computed inside the database. -/
def updateRow : Db → Nat → JNum → Db
  | [], _, _ => []
  | (i, row) :: rest, x, v =>
      (i, if i = x then { row with rating := v, matches_played := row.matches_played + 1 }
          else row) :: updateRow rest x v

/-- The rating stored for an id, as the vote handler would parse it
(none when the id is absent or the stored text does not parse). -/
def readRating (db : Db) (x : Nat) : JNum :=
  match getRow db x with
  | some row => row.rating
  | none => none

/-- The matches_played counter stored for an id (0 when the id is absent). -/
def mpOf (db : Db) (x : Nat) : Nat :=
  match getRow db x with
  | some row => row.matches_played
  | none => 0

/-- Line 35 of server.js. -/
noncomputable def K_FACTOR : ℝ := 32

/-- Lines 37-39 of server.js. -/
noncomputable def calculateExpectedScore (ratingA ratingB : ℝ) : ℝ :=
  1 / (1 + (10 : ℝ) ^ ((ratingB - ratingA) / 400))

/-- Lines 99-108 of server.js, with the k factor abstracted as in the spec:
both expected scores are computed with calculateExpectedScore and the new
ratings are winnerRating + k * (1 - expectedWinner) and
loserRating + k * (0 - expectedLoser). -/
noncomputable def computeUpdate (winnerRating loserRating kFactor : ℝ) : ℝ × ℝ :=
  (winnerRating + kFactor * (1 - calculateExpectedScore winnerRating loserRating),
   loserRating + kFactor * (0 - calculateExpectedScore loserRating winnerRating))

/-- The same computation on possibly-NaN inputs. In JavaScript a NaN produced by
a failed parseFloat propagates through every arithmetic step of lines 99-108,
so both outputs are NaN as soon as either input is. -/
noncomputable def computeNewRatings : JNum → JNum → JNum × JNum
  | some w, some l =>
      (some (computeUpdate w l K_FACTOR).1, some (computeUpdate w l K_FACTOR).2)
  | _, _ => (none, none)

/-- A storage access issued by the vote handler: a SELECT for one id or an
UPDATE writing a new rating for one id. -/
inductive StorageOp where
  | fetch (id : Nat)
  | update (id : Nat) (newRating : JNum)

/-- The response of the vote handler. -/
inductive VoteOutcome where
  /-- 400, winnerId and loserId are required: the only validation rejection. -/
  | invalidVote
  /-- 404, Image not found. -/
  | imageNotFound
  /-- 500, Vote failed: the transaction threw and was rolled back. -/
  | voteFailed
  /-- 200 with the two freshly computed ratings in the body. -/
  | success (winnerRating loserRating : JNum)

/-- The BEGIN ... COMMIT block of lines 115-140 of server.js, run against a
pending snapshot of the table. The failure point is an oracle for a query
raising: some 0 means the first UPDATE raises, some 1 the second UPDATE,
some 2 the COMMIT; none means every query succeeds. ROLLBACK discards the
pending snapshot, so a failed run leaves the visible table untouched.
The result is the visible table, whether the commit happened, and the list
of UPDATE statements that were issued. -/
def runVoteTx (db : Db) (w : Nat) (newW : JNum) (l : Nat) (newL : JNum)
    (fp : Option (Fin 3)) : Db × Bool × List StorageOp :=
  if fp = some 0 then (db, false, [])
  else
    let pending1 := updateRow db w newW
    if fp = some 1 then (db, false, [StorageOp.update w newW])
    else
      let pending2 := updateRow pending1 l newL
      if fp = some 2 then (db, false, [StorageOp.update w newW, StorageOp.update l newL])
      else (pending2, true, [StorageOp.update w newW, StorageOp.update l newL])

/-- The POST /api/vote handler, lines 64-153 of server.js. Missing body fields
are modelled by none. The handler checks only that both ids are present, then
fetches both rows, parses both ratings, computes the new ratings and runs the
transaction; it never compares winnerId with loserId and never rejects an
unparseable rating. The result is the response, the visible table afterwards,
and the trace of storage accesses that were issued. -/
noncomputable def postVote (db : Db) (winnerId loserId : Option Nat)
    (fp : Option (Fin 3)) : VoteOutcome × Db × List StorageOp :=
  match winnerId, loserId with
  | some w, some l =>
      match getRow db w, getRow db l with
      | some wr, some lr =>
          let newRatings := computeNewRatings wr.rating lr.rating
          let tx := runVoteTx db w newRatings.1 l newRatings.2 fp
          if tx.2.1 then
            (VoteOutcome.success newRatings.1 newRatings.2, tx.1,
             StorageOp.fetch w :: StorageOp.fetch l :: tx.2.2)
          else
            (VoteOutcome.voteFailed, tx.1,
             StorageOp.fetch w :: StorageOp.fetch l :: tx.2.2)
      | _, _ => (VoteOutcome.imageNotFound, db, [StorageOp.fetch w, StorageOp.fetch l])
  | _, _ => (VoteOutcome.invalidVote, db, [])

/-- The INSERT of the upload handler, lines 172-175 of server.js: a new row with
rating 1200 and matches_played 0. The database assigns the fresh id, modelled
here as a parameter. -/
noncomputable def createItem (db : Db) (newId : Nat) (nm url : String) : Db :=
  db ++ [(newId, { name := nm, image_url := url, rating := some 1200, matches_played := 0 })]

/-- The response of the matchup handler. -/
inductive MatchupResult where
  /-- 404, Not enough images. -/
  | notEnoughImages
  /-- 200 with the two selected rows. -/
  | pair (fst snd : Nat × Row)

/-- The GET /api/matchup handler, lines 42-52 of server.js: SELECT * FROM images
ORDER BY RANDOM() LIMIT 2. The random order is modelled by running the handler
on an arbitrary permutation of the table; the handler takes the first two rows
and answers 404 when fewer than two exist. -/
def getMatchup (shuffled : Db) : MatchupResult :=
  match shuffled with
  | a :: b :: _ => MatchupResult.pair a b
  | _ => MatchupResult.notEnoughImages

/-- One in-flight vote of the concurrency model: its two ids, a program counter
and the two ratings it has read so far. pc 0 is before the winner SELECT,
pc 1 before the loser SELECT, pc 2 before the update transaction, pc 3 done. -/
structure VoteState where
  winnerId : Nat
  loserId : Nat
  pc : Nat
  regW : JNum
  regL : JNum

/-- One atomic step of an in-flight vote. The two SELECT statements of lines
79-80 of server.js run outside the transaction, so each is a separate step
reading the current table; the whole BEGIN ... COMMIT block is taken as one
atomic step, which is generous to the code. -/
noncomputable def voteStep (db : Db) (v : VoteState) : Db × VoteState :=
  if v.pc = 0 then (db, { v with regW := readRating db v.winnerId, pc := 1 })
  else if v.pc = 1 then (db, { v with regL := readRating db v.loserId, pc := 2 })
  else if v.pc = 2 then
    let p := computeNewRatings v.regW v.regL
    (updateRow (updateRow db v.winnerId p.1) v.loserId p.2, { v with pc := 3 })
  else (db, v)

/-- Interleaved execution of two in-flight votes under a schedule: true steps
the first vote, false the second. -/
noncomputable def execSched : Db → VoteState → VoteState → List Bool → Db × VoteState × VoteState
  | db, u, v, [] => (db, u, v)
  | db, u, v, true :: rest => execSched (voteStep db u).1 (voteStep db u).2 v rest
  | db, u, v, false :: rest => execSched (voteStep db v).1 u (voteStep db v).2 rest

/-- How many matches_played increments an in-flight vote at this program counter
still owes to an item it touches: one before its transaction has run, zero after. -/
def pendingInc (pc : Nat) : Nat := if pc ≤ 2 then 1 else 0

/-- Concrete rows and tables used for witnesses and counterexamples. -/
noncomputable def rowSelf : Row :=
  { name := "only", image_url := "u0", rating := some 1200, matches_played := 0 }

noncomputable def dbSelf : Db := [(1, rowSelf)]

noncomputable def rowP1 : Row :=
  { name := "p1", image_url := "u1", rating := some 1200, matches_played := 0 }

noncomputable def rowP2 : Row :=
  { name := "p2", image_url := "u2", rating := some 1000, matches_played := 5 }

noncomputable def dbPair : Db := [(1, rowP1), (2, rowP2)]

noncomputable def rowBad : Row :=
  { name := "corrupt", image_url := "u3", rating := none, matches_played := 0 }

noncomputable def dbBad : Db := [(1, rowBad), (2, rowP2)]

noncomputable def rowX : Row :=
  { name := "X", image_url := "ux", rating := some 1200, matches_played := 0 }

noncomputable def rowA : Row :=
  { name := "A", image_url := "ua", rating := some 1200, matches_played := 0 }

noncomputable def rowB : Row :=
  { name := "B", image_url := "ub", rating := some 1200, matches_played := 0 }

noncomputable def dbC : Db := [(1, rowX), (2, rowA), (3, rowB)]

/-- A vote of item 2 over item 1, not yet started. -/
def vA : VoteState := { winnerId := 2, loserId := 1, pc := 0, regW := none, regL := none }

/-- A vote of item 3 over item 1, not yet started. -/
def vB : VoteState := { winnerId := 3, loserId := 1, pc := 0, regW := none, regL := none }

/-- Reading an id after an UPDATE of another id is unchanged; reading the
updated id sees the rewritten rating and the incremented counter. -/
theorem getRow_updateRow (db : Db) (idu x : Nat) (v : JNum) :
    getRow (updateRow db idu v) x =
      if x = idu then
        (getRow db x).map fun row =>
          { row with rating := v, matches_played := row.matches_played + 1 }
      else getRow db x := by
  induction db with
  | nil => by_cases hx : x = idu <;> simp [getRow, updateRow, hx]
  | cons p rest ih =>
      obtain ⟨i, row⟩ := p
      by_cases hix : i = x
      · subst hix
        by_cases hid : i = idu <;> simp [getRow, updateRow, hid]
      · simp [getRow, updateRow, hix, ih]

/-- An UPDATE neither creates nor deletes rows. -/
theorem isSome_getRow_updateRow (db : Db) (idu x : Nat) (v : JNum) :
    (getRow (updateRow db idu v) x).isSome = (getRow db x).isSome := by
  rw [getRow_updateRow]
  by_cases hx : x = idu <;> simp [hx]

/-- Effect of one UPDATE on a stored matches_played counter. -/
theorem mpOf_updateRow (db : Db) (idu x : Nat) (v : JNum) :
    mpOf (updateRow db idu v) x =
      if x = idu ∧ (getRow db x).isSome then mpOf db x + 1 else mpOf db x := by
  unfold mpOf
  rw [getRow_updateRow]
  by_cases hx : x = idu
  · cases h : getRow db x <;> simp [hx, h]
  · simp [hx]

/-- No UPDATE ever decreases a matches_played counter. -/
theorem mpOf_le_updateRow (db : Db) (idu x : Nat) (v : JNum) :
    mpOf db x ≤ mpOf (updateRow db idu v) x := by
  rw [mpOf_updateRow]
  split <;> omega

/-- A lookup that succeeds is unchanged by appending rows. -/
theorem getRow_append_of_some (db1 db2 : Db) (x : Nat) (r : Row)
    (h : getRow db1 x = some r) : getRow (db1 ++ db2) x = some r := by
  induction db1 with
  | nil => simp [getRow] at h
  | cons p rest ih =>
      obtain ⟨i, row⟩ := p
      by_cases hx : i = x
      · simp [getRow, hx] at h ⊢
        exact h
      · simp [getRow, hx] at h ⊢
        exact ih h

/-- The INSERT of the upload handler never decreases a stored counter. -/
theorem mpOf_le_createItem (db : Db) (newId : Nat) (nm url : String) (x : Nat) :
    mpOf db x ≤ mpOf (createItem db newId nm url) x := by
  cases h : getRow db x with
  | none => simp [mpOf, h]
  | some r =>
      unfold createItem mpOf
      rw [getRow_append_of_some db _ x r h, h]

/-- The logistic expected score is positive. -/
theorem calculateExpectedScore_pos (a b : ℝ) : 0 < calculateExpectedScore a b := by
  unfold calculateExpectedScore
  have h : (0 : ℝ) < (10 : ℝ) ^ ((b - a) / 400) :=
    Real.rpow_pos_of_pos (by norm_num) _
  positivity

/-- The two expected scores of one matchup sum to one exactly. -/
theorem calculateExpectedScore_add_swap (a b : ℝ) :
    calculateExpectedScore a b + calculateExpectedScore b a = 1 := by
  unfold calculateExpectedScore
  have hrw : (a - b) / 400 = -((b - a) / 400) := by ring
  rw [hrw, Real.rpow_neg (by norm_num)]
  have ht : (0 : ℝ) < (10 : ℝ) ^ ((b - a) / 400) :=
    Real.rpow_pos_of_pos (by norm_num) _
  have ht1 : (1 : ℝ) + (10 : ℝ) ^ ((b - a) / 400) ≠ 0 := by positivity
  field_simp
  ring

/-- Equal ratings give expected score one half. -/
theorem calculateExpectedScore_self (r : ℝ) : calculateExpectedScore r r = 1 / 2 := by
  have h := calculateExpectedScore_add_swap r r
  linarith

/-- A step never changes which vote is being taken. -/
theorem voteStep_ids (db : Db) (v : VoteState) :
    (voteStep db v).2.winnerId = v.winnerId ∧ (voteStep db v).2.loserId = v.loserId := by
  unfold voteStep
  split_ifs <;> simp

/-- A step neither creates nor deletes rows. -/
theorem voteStep_isSome (db : Db) (v : VoteState) (x : Nat) :
    (getRow (voteStep db v).1 x).isSome = (getRow db x).isSome := by
  unfold voteStep
  split_ifs <;> simp [isSome_getRow_updateRow]

/-- One step of a vote conserves the stored matches_played counter of an item the
vote touches plus the increment the vote still owes it: the two reads change
neither term, the transaction step adds one to the counter and removes the owed
increment. -/
theorem voteStep_mp (db : Db) (v : VoteState) (x : Nat)
    (hx : (getRow db x).isSome = true)
    (hmem : x = v.winnerId ∨ x = v.loserId) (hne : v.winnerId ≠ v.loserId) :
    mpOf (voteStep db v).1 x + pendingInc (voteStep db v).2.pc
      = mpOf db x + pendingInc v.pc := by
  unfold voteStep
  split_ifs with h0 h1 h2
  · simp [pendingInc, h0]
  · simp [pendingInc, h1]
  · simp only
    rw [mpOf_updateRow, mpOf_updateRow]
    rw [isSome_getRow_updateRow]
    rcases hmem with hw | hl
    · rw [if_neg, if_pos ⟨hw, hx⟩]
      · simp [pendingInc, h2]
      · rintro ⟨hxl, -⟩
        exact hne (hw ▸ hxl ▸ rfl)
    · rw [if_pos ⟨hl, hx⟩]
      rw [if_neg]
      · simp [pendingInc, h2]
      · rintro ⟨hxw, -⟩
        exact hne (hxw ▸ hl ▸ rfl)
  · have hpc : ¬v.pc ≤ 2 := by omega
    simp [pendingInc, hpc]

/-- Conservation along any interleaving: the stored counter of an item both
votes touch, plus the increments still owed by each vote, is invariant. -/
theorem execSched_mp (sch : List Bool) (db : Db) (u v : VoteState) (x : Nat)
    (hx : (getRow db x).isSome = true)
    (hu : x = u.winnerId ∨ x = u.loserId) (hune : u.winnerId ≠ u.loserId)
    (hv : x = v.winnerId ∨ x = v.loserId) (hvne : v.winnerId ≠ v.loserId) :
    mpOf (execSched db u v sch).1 x
      + pendingInc (execSched db u v sch).2.1.pc
      + pendingInc (execSched db u v sch).2.2.pc
      = mpOf db x + pendingInc u.pc + pendingInc v.pc := by
  induction sch generalizing db u v with
  | nil => simp [execSched]
  | cons b rest ih =>
      cases b
      · have hids := voteStep_ids db v
        have hmp := voteStep_mp db v x hx hv hvne
        have hsome := voteStep_isSome db v x
        have hrec := ih (voteStep db v).1 u (voteStep db v).2
          (by rw [hsome]; exact hx) hu hune
          (by rw [hids.1, hids.2]; exact hv) (by rw [hids.1, hids.2]; exact hvne)
        simp only [execSched] at hrec ⊢
        omega
      · have hids := voteStep_ids db u
        have hmp := voteStep_mp db u x hx hu hune
        have hsome := voteStep_isSome db u x
        have hrec := ih (voteStep db u).1 (voteStep db u).2 v
          (by rw [hsome]; exact hx)
          (by rw [hids.1, hids.2]; exact hu) (by rw [hids.1, hids.2]; exact hune)
          hv hvne
        simp only [execSched] at hrec ⊢
        omega

/-- Shape of the vote handler when both rows resolve and no query fails. -/
theorem postVote_success_eq (db : Db) (w l : Nat) (wr lr : Row)
    (hw : getRow db w = some wr) (hl : getRow db l = some lr) :
    postVote db (some w) (some l) none =
      (VoteOutcome.success (computeNewRatings wr.rating lr.rating).1
         (computeNewRatings wr.rating lr.rating).2,
       updateRow (updateRow db w (computeNewRatings wr.rating lr.rating).1) l
         (computeNewRatings wr.rating lr.rating).2,
       [StorageOp.fetch w, StorageOp.fetch l,
        StorageOp.update w (computeNewRatings wr.rating lr.rating).1,
        StorageOp.update l (computeNewRatings wr.rating lr.rating).2]) := by
  simp [postVote, hw, hl, runVoteTx]

/-- A transaction with a failing query rolls back and does not commit. -/
theorem runVoteTx_failed (db : Db) (w : Nat) (nw : JNum) (l : Nat) (nl : JNum) (i : Fin 3) :
    (runVoteTx db w nw l nl (some i)).1 = db ∧
      (runVoteTx db w nw l nl (some i)).2.1 = false := by
  fin_cases i <;> simp [runVoteTx]

/-- A transaction never decreases a stored counter. -/
theorem mpOf_le_runVoteTx (db : Db) (w : Nat) (nw : JNum) (l : Nat) (nl : JNum)
    (fp : Option (Fin 3)) (x : Nat) :
    mpOf db x ≤ mpOf (runVoteTx db w nw l nl fp).1 x := by
  unfold runVoteTx
  split_ifs <;> simp
  exact le_trans (mpOf_le_updateRow db w x nw) (mpOf_le_updateRow _ l x nl)

/-- NaN on the left propagates to both outputs. -/
theorem computeNewRatings_none_left (y : JNum) : computeNewRatings none y = (none, none) := by
  cases y <;> simp [computeNewRatings]

/-- NaN on the right propagates to both outputs. -/
theorem computeNewRatings_none_right (x : JNum) : computeNewRatings x none = (none, none) := by
  cases x <;> simp [computeNewRatings]

/-- The rating visible after the two UPDATE statements of one vote: a row named
twice keeps only the second write. -/
theorem readRating_double_update (db : Db) (w l : Nat) (nw nl : JNum) (x : Nat)
    (hx : (getRow db x).isSome = true) (hxe : x = w ∨ x = l) :
    readRating (updateRow (updateRow db w nw) l nl) x = if x = l then nl else nw := by
  obtain ⟨row, hrow⟩ := Option.isSome_iff_exists.mp hx
  unfold readRating
  rw [getRow_updateRow]
  by_cases hxl : x = l
  · rw [if_pos hxl, getRow_updateRow]
    by_cases hxw : x = w
    · rw [if_pos hxw, hrow]
      simp [hxl]
    · rw [if_neg hxw, hrow]
      simp [hxl]
  · rw [if_neg hxl]
    rcases hxe with hxw | h
    · rw [getRow_updateRow, if_pos hxw, hrow]
      simp [hxl]
    · exact absurd h hxl

/-- C5: for all ratings a and b, expectedScore(a,b) + expectedScore(b,a) equals 1;
in the real-valued model of the floating computation the sum is exactly 1, hence
within any tolerance. -/
theorem expectedScore_symmetric (a b : ℝ) :
    calculateExpectedScore a b + calculateExpectedScore b a = 1 :=
  calculateExpectedScore_add_swap a b

/-- C4: for every rating pair and every k factor the update is zero-sum: the
winner gain plus the loser change is exactly 0, hence within tolerance 1e-9. -/
theorem computeUpdate_zero_sum (w l k : ℝ) :
    ((computeUpdate w l k).1 - w) + ((computeUpdate w l k).2 - l) = 0 := by
  have h2 : calculateExpectedScore l w = 1 - calculateExpectedScore w l := by
    have h := calculateExpectedScore_add_swap w l
    linarith
  unfold computeUpdate
  rw [h2]
  ring

/-- C6: with winner and loser both rated 1200 and k factor 32, both expected
scores are one half and the new ratings are exactly 1216 and 1184, both in the
pure update and in the lifted computation the vote handler runs. -/
theorem equal_ratings_scenario :
    calculateExpectedScore 1200 1200 = 1 / 2 ∧
    computeUpdate 1200 1200 K_FACTOR = (1216, 1184) ∧
    computeNewRatings (some 1200) (some 1200) = (some 1216, some 1184) := by
  refine ⟨calculateExpectedScore_self 1200, ?_, ?_⟩
  · unfold computeUpdate K_FACTOR
    rw [calculateExpectedScore_self]
    norm_num [Prod.ext_iff]
  · simp only [computeNewRatings]
    unfold computeUpdate K_FACTOR
    rw [calculateExpectedScore_self]
    norm_num [Prod.ext_iff]

/-- C1 counterexample: with item 1 stored, a vote naming item 1 as both winner
and loser is not rejected by validation: the handler does not answer the 400
validation error and it does issue storage accesses. -/
theorem self_vote_not_rejected :
    (postVote dbSelf (some 1) (some 1) none).1 ≠ VoteOutcome.invalidVote ∧
    (postVote dbSelf (some 1) (some 1) none).2.2 ≠ ([] : List StorageOp) := by
  constructor <;> simp [postVote, dbSelf, rowSelf, getRow, runVoteTx]

/-- C1 amended: the only fail-fast validation of the vote handler is the
presence check: it answers the 400 validation error exactly when winnerId or
loserId is missing, and in that case the table is untouched and no storage
access is issued; equal present ids are not rejected. -/
theorem vote_validation_missing_ids (db : Db) (wid lid : Option Nat) (fp : Option (Fin 3)) :
    ((postVote db wid lid fp).1 = VoteOutcome.invalidVote ↔ (wid = none ∨ lid = none)) ∧
    ((wid = none ∨ lid = none) →
      postVote db wid lid fp = (VoteOutcome.invalidVote, db, [])) := by
  rcases wid with _ | w
  · simp [postVote]
  rcases lid with _ | l
  · simp [postVote]
  refine ⟨⟨?_, ?_⟩, ?_⟩
  · intro h
    exfalso
    rcases hw : getRow db w with _ | wr
    · simp [postVote, hw] at h
    rcases hl : getRow db l with _ | lr
    · simp [postVote, hw, hl] at h
    simp only [postVote, hw, hl] at h
    split at h <;> simp at h
  · rintro (h | h) <;> exact absurd h (by simp)
  · rintro (h | h) <;> simp at h

/-- C1 witness. -/
theorem vote_validation_missing_ids_witness :
    postVote dbSelf none (some 1) none = (VoteOutcome.invalidVote, dbSelf, []) :=
  (vote_validation_missing_ids dbSelf none (some 1) none).2 (Or.inl rfl)

/-- C2 amended: matches_played never decreases under the vote handler or the
upload INSERT; a resolved vote whose two ids are distinct and present adds
exactly one to each of the two named rows and leaves every other row unchanged;
a resolved vote naming the same row twice adds two to it. -/
theorem matchesPlayed_increment (db : Db) (x : Nat) :
    (∀ wid lid fp, mpOf db x ≤ mpOf (postVote db wid lid fp).2.1 x) ∧
    (∀ newId nm url, mpOf db x ≤ mpOf (createItem db newId nm url) x) ∧
    (∀ w l wr lr, w ≠ l → getRow db w = some wr → getRow db l = some lr →
      mpOf (postVote db (some w) (some l) none).2.1 w = mpOf db w + 1 ∧
      mpOf (postVote db (some w) (some l) none).2.1 l = mpOf db l + 1 ∧
      (x ≠ w → x ≠ l → mpOf (postVote db (some w) (some l) none).2.1 x = mpOf db x)) := by
  refine ⟨?_, ?_, ?_⟩
  · intro wid lid fp
    rcases wid with _ | w
    · simp [postVote]
    rcases lid with _ | l
    · simp [postVote]
    rcases hw : getRow db w with _ | wr
    · simp [postVote, hw]
    rcases hl : getRow db l with _ | lr
    · simp [postVote, hw, hl]
    simp only [postVote, hw, hl]
    split <;> exact mpOf_le_runVoteTx db w _ l _ fp x
  · intro newId nm url
    exact mpOf_le_createItem db newId nm url x
  · intro w l wr lr hne hw hl
    rw [postVote_success_eq db w l wr lr hw hl]
    simp only
    refine ⟨?_, ?_, ?_⟩
    · rw [mpOf_updateRow, if_neg, mpOf_updateRow, if_pos ⟨rfl, by rw [hw]; rfl⟩]
      rintro ⟨hwl, -⟩
      exact hne hwl
    · rw [mpOf_updateRow,
        if_pos ⟨rfl, by rw [isSome_getRow_updateRow, hl]; rfl⟩,
        mpOf_updateRow, if_neg]
      rintro ⟨hlw, -⟩
      exact hne hlw.symm
    · intro hxw hxl
      rw [mpOf_updateRow, if_neg, mpOf_updateRow, if_neg]
      · rintro ⟨h, -⟩
        exact hxw h
      · rintro ⟨h, -⟩
        exact hxl h

/-- C2 witness. -/
theorem matchesPlayed_increment_witness :
    mpOf (postVote dbPair (some 1) (some 2) none).2.1 2 = mpOf dbPair 2 + 1 := by
  have h := (matchesPlayed_increment dbPair 3).2.2 1 2 rowP1 rowP2 (by decide)
    (by simp [dbPair, getRow]) (by simp [dbPair, getRow])
  exact h.2.1

/-- C2 counterexample: the self vote on the single stored item resolves
successfully and raises the matches_played counter of the participating item
by two, not by one. -/
theorem self_vote_double_increment :
    (postVote dbSelf (some 1) (some 1) none).1
      = VoteOutcome.success (some 1216) (some 1184) ∧
    mpOf (postVote dbSelf (some 1) (some 1) none).2.1 1 = mpOf dbSelf 1 + 2 ∧
    mpOf dbSelf 1 + 2 ≠ mpOf dbSelf 1 + 1 := by
  refine ⟨?_, ?_, by simp [mpOf, dbSelf, getRow, rowSelf]⟩
  · simp [postVote, dbSelf, rowSelf, getRow, runVoteTx, computeNewRatings,
      computeUpdate, K_FACTOR, calculateExpectedScore_self]
    norm_num
  · simp [postVote, dbSelf, rowSelf, getRow, runVoteTx, updateRow, mpOf]

/-- C3 counterexample: item 1 stores a rating text that does not parse. The
handler raises no error: it answers success carrying NaN in both fields and the
committed transaction writes NaN into both stored ratings. -/
theorem nan_written_counterexample :
    (postVote dbBad (some 1) (some 2) none).1 = VoteOutcome.success none none ∧
    readRating (postVote dbBad (some 1) (some 2) none).2.1 1 = none ∧
    readRating (postVote dbBad (some 1) (some 2) none).2.1 2 = none := by
  refine ⟨?_, ?_, ?_⟩ <;>
    simp [postVote, dbBad, rowBad, rowP2, getRow, runVoteTx, computeNewRatings,
      updateRow, readRating]

/-- C3 amended: both stored rating texts are parsed before any arithmetic; when
both parse, the response carries exactly the Elo updates of the parsed values;
when either fails to parse, no InvalidRatingError analogue exists: the handler
answers success with NaN and commits NaN into the rating of both named rows. -/
theorem parse_then_compute (db : Db) (w l : Nat) (wr lr : Row)
    (hw : getRow db w = some wr) (hl : getRow db l = some lr) :
    (∀ a b, wr.rating = some a → lr.rating = some b →
      (postVote db (some w) (some l) none).1
        = VoteOutcome.success (some (computeUpdate a b K_FACTOR).1)
            (some (computeUpdate a b K_FACTOR).2)) ∧
    ((wr.rating = none ∨ lr.rating = none) →
      (postVote db (some w) (some l) none).1 = VoteOutcome.success none none ∧
      readRating (postVote db (some w) (some l) none).2.1 w = none ∧
      readRating (postVote db (some w) (some l) none).2.1 l = none) := by
  have hs := postVote_success_eq db w l wr lr hw hl
  constructor
  · intro a b ha hb
    rw [hs]
    simp only
    rw [ha, hb]
    simp [computeNewRatings]
  · intro hnone
    have hcn : computeNewRatings wr.rating lr.rating = (none, none) := by
      rcases hnone with h | h
      · rw [h]
        exact computeNewRatings_none_left lr.rating
      · rw [h]
        exact computeNewRatings_none_right wr.rating
    rw [hs]
    simp only
    rw [hcn]
    refine ⟨rfl, ?_, ?_⟩
    · rw [readRating_double_update db w l none none w (by rw [hw]; rfl) (Or.inl rfl)]
      split <;> rfl
    · rw [readRating_double_update db w l none none l (by rw [hl]; rfl) (Or.inr rfl)]
      simp

/-- C3 witness. -/
theorem parse_then_compute_witness :
    (postVote dbBad (some 1) (some 2) none).1 = VoteOutcome.success none none := by
  have h := parse_then_compute dbBad 1 2 rowBad rowP2
    (by simp [dbBad, getRow]) (by simp [dbBad, getRow])
  exact (h.2 (Or.inl rfl)).1

/-- C7: the two row updates of a vote commit as one atomic unit: with no query
failure the response is success and both rows are visibly updated; a failure at
any of the three points inside the transaction rolls back, the visible table is
exactly the pre-vote table, and the caller receives the 500 vote failed
response, the PersistenceError of the spec. -/
theorem vote_transaction_atomic (db : Db) (w l : Nat) (wr lr : Row) (fp : Option (Fin 3))
    (hw : getRow db w = some wr) (hl : getRow db l = some lr) :
    (fp = none →
      postVote db (some w) (some l) fp
        = (VoteOutcome.success (computeNewRatings wr.rating lr.rating).1
             (computeNewRatings wr.rating lr.rating).2,
           updateRow (updateRow db w (computeNewRatings wr.rating lr.rating).1) l
             (computeNewRatings wr.rating lr.rating).2,
           [StorageOp.fetch w, StorageOp.fetch l,
            StorageOp.update w (computeNewRatings wr.rating lr.rating).1,
            StorageOp.update l (computeNewRatings wr.rating lr.rating).2])) ∧
    (fp ≠ none →
      (postVote db (some w) (some l) fp).1 = VoteOutcome.voteFailed ∧
      (postVote db (some w) (some l) fp).2.1 = db) := by
  constructor
  · rintro rfl
    exact postVote_success_eq db w l wr lr hw hl
  · intro hfp
    rcases fp with _ | i
    · exact absurd rfl hfp
    have hfail := runVoteTx_failed db w (computeNewRatings wr.rating lr.rating).1 l
      (computeNewRatings wr.rating lr.rating).2 i
    simp only [postVote, hw, hl]
    rw [hfail.2, hfail.1]
    simp

/-- C7 witness. -/
theorem vote_transaction_atomic_witness :
    (postVote dbPair (some 1) (some 2) (some 0)).2.1 = dbPair := by
  have h := vote_transaction_atomic dbPair 1 2 rowP1 rowP2 (some 0)
    (by simp [dbPair, getRow]) (by simp [dbPair, getRow])
  exact (h.2 (by simp)).2

/-- C8: run on any random order of the stored table, the matchup handler
answers two distinct stored items when at least two exist, and the 404 not
enough images response, with no items, when fewer than two exist. -/
theorem matchup_two_distinct_or_error (db shuffled : Db)
    (hperm : shuffled.Perm db) (hnodup : (db.map Prod.fst).Nodup) :
    (2 ≤ db.length →
      ∃ a b t, shuffled = a :: b :: t ∧
        getMatchup shuffled = MatchupResult.pair a b ∧
        a.1 ≠ b.1 ∧ a ∈ db ∧ b ∈ db) ∧
    (db.length < 2 → getMatchup shuffled = MatchupResult.notEnoughImages) := by
  have hlen : shuffled.length = db.length := hperm.length_eq
  constructor
  · intro h2
    rcases shuffled with _ | ⟨a, _ | ⟨b, t⟩⟩
    · simp at hlen
      omega
    · simp at hlen
      omega
    · refine ⟨a, b, t, rfl, rfl, ?_, ?_, ?_⟩
      · have hnd : ((a :: b :: t).map Prod.fst).Nodup :=
          (hperm.map Prod.fst).nodup_iff.mpr hnodup
        rcases List.nodup_cons.mp hnd with ⟨hna, -⟩
        intro hab
        exact hna (by simp [hab])
      · exact hperm.subset (by simp)
      · exact hperm.subset (by simp)
  · intro h2
    rcases shuffled with _ | ⟨a, _ | ⟨b, t⟩⟩
    · rfl
    · rfl
    · exfalso
      simp at hlen
      omega

/-- C8 witness. -/
theorem matchup_two_distinct_or_error_witness :
    getMatchup [(1, rowP1)] = MatchupResult.notEnoughImages :=
  (matchup_two_distinct_or_error [(1, rowP1)] [(1, rowP1)] (List.Perm.refl _)
    (by simp)).2 (by simp)

/-- C9 amended: the handler reads both ratings with plain SELECT statements
outside the update transaction and takes no lock, so concurrent votes sharing
an item are not serialized; what does survive every interleaving is the
matches_played counter, incremented inside each transaction: after any
schedule under which two votes touching item x both complete, the stored
counter of x is exactly its initial value plus two. -/
theorem concurrent_votes_matchesPlayed (db : Db) (u v : VoteState) (sch : List Bool) (x : Nat)
    (hu0 : u.pc = 0) (hv0 : v.pc = 0)
    (hx : (getRow db x).isSome = true)
    (hu : x = u.winnerId ∨ x = u.loserId) (hune : u.winnerId ≠ u.loserId)
    (hv : x = v.winnerId ∨ x = v.loserId) (hvne : v.winnerId ≠ v.loserId)
    (hdone1 : 2 < (execSched db u v sch).2.1.pc)
    (hdone2 : 2 < (execSched db u v sch).2.2.pc) :
    mpOf (execSched db u v sch).1 x = mpOf db x + 2 := by
  have h := execSched_mp sch db u v x hx hu hune hv hvne
  have p1 : pendingInc (execSched db u v sch).2.1.pc = 0 := by
    unfold pendingInc
    have hne : ¬(execSched db u v sch).2.1.pc ≤ 2 := by omega
    simp [hne]
  have p2 : pendingInc (execSched db u v sch).2.2.pc = 0 := by
    unfold pendingInc
    have hne : ¬(execSched db u v sch).2.2.pc ≤ 2 := by omega
    simp [hne]
  rw [p1, p2, hu0, hv0] at h
  simp [pendingInc] at h
  omega

/-- C9 witness. -/
theorem concurrent_votes_matchesPlayed_witness :
    mpOf (execSched dbC vA vB [true, true, true, false, false, false]).1 1 = 2 := by
  have h := concurrent_votes_matchesPlayed dbC vA vB
    [true, true, true, false, false, false] 1 rfl rfl
    (by simp [dbC, getRow]) (Or.inr rfl) (by simp [vA]) (Or.inr rfl) (by simp [vB])
    (by simp [execSched, voteStep, vA, vB, dbC, readRating, getRow, updateRow])
    (by simp [execSched, voteStep, vA, vB, dbC, readRating, getRow, updateRow])
  rw [h]
  simp [mpOf, dbC, getRow, rowX]

/-- C9 counterexample: votes A beats X and B beats X, every rating 1200. Under
the interleaving that runs both read phases before either transaction, both
votes hold the same stale rating 1200 for X in their loser register, and the
final stored rating of X is exactly 1184, while under either serial order it is
1184 + 32 * (0 - expectedScore 1184 1200), strictly below 1184: the interleaved
outcome matches no serialization, so the first rating update of X is lost. -/
theorem lost_update_counterexample :
    (execSched dbC vA vB [true, true, false, false]).2.1.regL = some 1200 ∧
    (execSched dbC vA vB [true, true, false, false]).2.2.regL = some 1200 ∧
    readRating (execSched dbC vA vB [true, true, false, false, true, false]).1 1
      = some 1184 ∧
    readRating (execSched dbC vA vB [true, true, true, false, false, false]).1 1
      = some (1184 + 32 * (0 - calculateExpectedScore 1184 1200)) ∧
    readRating (execSched dbC vA vB [false, false, false, true, true, true]).1 1
      = some (1184 + 32 * (0 - calculateExpectedScore 1184 1200)) ∧
    readRating (execSched dbC vA vB [true, true, false, false, true, false]).1 1
      ≠ readRating (execSched dbC vA vB [true, true, true, false, false, false]).1 1 ∧
    readRating (execSched dbC vA vB [true, true, false, false, true, false]).1 1
      ≠ readRating (execSched dbC vA vB [false, false, false, true, true, true]).1 1 := by
  have hpos := calculateExpectedScore_pos 1184 1200
  have hreg1 : (execSched dbC vA vB [true, true, false, false]).2.1.regL = some 1200 := by
    simp [execSched, voteStep, vA, vB, dbC, rowX, rowA, rowB, readRating, getRow, updateRow]
  have hreg2 : (execSched dbC vA vB [true, true, false, false]).2.2.regL = some 1200 := by
    simp [execSched, voteStep, vA, vB, dbC, rowX, rowA, rowB, readRating, getRow, updateRow]
  have hbad : readRating (execSched dbC vA vB [true, true, false, false, true, false]).1 1
      = some 1184 := by
    simp [execSched, voteStep, vA, vB, dbC, rowX, rowA, rowB, readRating, getRow,
      updateRow, computeNewRatings, computeUpdate, K_FACTOR, calculateExpectedScore_self]
    norm_num
  have hser1 : readRating (execSched dbC vA vB [true, true, true, false, false, false]).1 1
      = some (1184 + 32 * (0 - calculateExpectedScore 1184 1200)) := by
    simp [execSched, voteStep, vA, vB, dbC, rowX, rowA, rowB, readRating, getRow,
      updateRow, computeNewRatings, computeUpdate, K_FACTOR, calculateExpectedScore_self]
    norm_num
  have hser2 : readRating (execSched dbC vA vB [false, false, false, true, true, true]).1 1
      = some (1184 + 32 * (0 - calculateExpectedScore 1184 1200)) := by
    simp [execSched, voteStep, vA, vB, dbC, rowX, rowA, rowB, readRating, getRow,
      updateRow, computeNewRatings, computeUpdate, K_FACTOR, calculateExpectedScore_self]
    norm_num
  refine ⟨hreg1, hreg2, hbad, hser1, hser2, ?_, ?_⟩
  · rw [hbad, hser1]
    intro hcontra
    rw [Option.some.injEq] at hcontra
    linarith
  · rw [hbad, hser2]
    intro hcontra
    rw [Option.some.injEq] at hcontra
    linarith

/-- C10: a vote naming the same existing id as winner and loser succeeds: the
response carries the winner branch value r + 16 and the loser branch value
r - 16 computed from the pre-vote rating r, the one row is updated twice inside
the one transaction, so its counter rises by two and its final stored rating is
the loser branch value, the winner branch write having been overwritten. -/
theorem self_vote_behavior (db : Db) (id : Nat) (row : Row) (r : ℝ)
    (hrow : getRow db id = some row) (hr : row.rating = some r) :
    (postVote db (some id) (some id) none).1
      = VoteOutcome.success (some (r + 16)) (some (r - 16)) ∧
    getRow (postVote db (some id) (some id) none).2.1 id
      = some { row with
               rating := some (r - 16)
               matches_played := row.matches_played + 2 } := by
  have hs := postVote_success_eq db id id row row hrow hrow
  have hnum : computeNewRatings row.rating row.rating = (some (r + 16), some (r - 16)) := by
    rw [hr]
    simp only [computeNewRatings]
    unfold computeUpdate K_FACTOR
    rw [calculateExpectedScore_self]
    norm_num [Prod.ext_iff]
    ring
  constructor
  · rw [hs]
    simp only
    rw [hnum]
  · rw [hs]
    simp only
    rw [getRow_updateRow, if_pos rfl, getRow_updateRow, if_pos rfl, hrow, hnum]
    simp [Row.mk.injEq]

/-- C10 witness. -/
theorem self_vote_behavior_witness :
    (postVote dbSelf (some 1) (some 1) none).1
      = VoteOutcome.success (some 1216) (some 1184) := by
  have h := self_vote_behavior dbSelf 1 rowSelf 1200 (by simp [dbSelf, getRow]) rfl
  rw [h.1]
  norm_num

end MemeSmash
